import Mathlib

/-
Shallow embedding of the business-calendar engine of src/app.py.

Timestamps are modelled as integer seconds since 0001-01-01 00:00:00
(proleptic Gregorian, as Python datetime): day number = t / 86400 with
day 0 = Monday (0001-01-01 is a Monday in the proleptic calendar, which
matches Python weekday numbering), time of day = t % 86400.  All parsed
timestamps have whole seconds and zero microseconds, so second
resolution is exact.  Floor division and floor modulus (Int.ediv and
Int.emod for positive divisors) mirror Python semantics.
-/

/-! Gregorian calendar arithmetic, as Python datetime.date.toordinal. -/

def isLeapYear (y : ℕ) : Bool := (y % 4 == 0 && y % 100 != 0) || (y % 400 == 0)

def daysInMonth (y m : ℕ) : ℕ :=
  if m = 2 then (if isLeapYear y then 29 else 28)
  else if m = 4 ∨ m = 6 ∨ m = 9 ∨ m = 11 then 30 else 31

def daysBeforeMonth (y m : ℕ) : ℕ :=
  ((List.range (m - 1)).map (fun i => daysInMonth y (i + 1))).sum

def daysBeforeYear (y : ℕ) : ℕ :=
  365 * (y - 1) + (y - 1) / 4 - (y - 1) / 100 + (y - 1) / 400

def toOrdinal (y m d : ℕ) : ℕ := daysBeforeYear y + daysBeforeMonth y m + d

/-- Validity check performed by the datetime constructor inside strptime:
month range is already enforced by the directive pattern, the day must fit
the month, the year must be in MINYEAR..MAXYEAR. -/
def validDate (y m d : ℕ) : Bool :=
  decide (1 ≤ y) && decide (y ≤ 9999) && decide (1 ≤ d) && decide (d ≤ daysInMonth y m)

/-- Absolute seconds of a (naive) datetime. -/
def mkDT (y mo d h mi s : ℕ) : ℤ :=
  ((toOrdinal y mo d : ℤ) - 1) * 86400 + (h : ℤ) * 3600 + (mi : ℤ) * 60 + (s : ℤ)

/-! Timestamp parser.

datetime.strptime compiles each format directive to a regex fragment and
requires a full match (re.IGNORECASE); in the eight formats used by
calculate_working_days every variable-width directive is followed by a
non-digit separator, so ordered committed alternation (longest listed
alternative first, exactly the alternation order of the CPython
_strptime patterns) is equivalent to the backtracking regex.  A space in
the format matches one or more whitespace characters. -/

def digitVal (c : Char) : ℕ := c.toNat - 48

def isSpaceChar (c : Char) : Bool :=
  c = ' ' || c = '\t' || c = '\n' || c = '\r' || c.toNat = 11 || c.toNat = 12

/-- Python str.strip, applied to both inputs before parsing. -/
def stripChars (l : List Char) : List Char :=
  ((l.dropWhile isSpaceChar).reverse.dropWhile isSpaceChar).reverse

def matchLit (c : Char) : List Char → Option (List Char)
  | a :: rest => if a = c then some rest else none
  | [] => none

/-- Format whitespace: one or more whitespace characters (greedy). -/
def matchWS : List Char → Option (List Char)
  | a :: rest => if isSpaceChar a then some (rest.dropWhile isSpaceChar) else none
  | [] => none

/-- Directive Y: exactly four digits. -/
def matchY : List Char → Option (ℕ × List Char)
  | a :: b :: c :: d :: rest =>
    if a.isDigit ∧ b.isDigit ∧ c.isDigit ∧ d.isDigit then
      some (digitVal a * 1000 + digitVal b * 100 + digitVal c * 10 + digitVal d, rest)
    else none
  | _ => none

/-- Directives m and I share the CPython alternation 1[0-2], 0[1-9], [1-9]. -/
def matchTwelve : List Char → Option (ℕ × List Char)
  | a :: b :: rest =>
    if a = '1' ∧ '0' ≤ b ∧ b ≤ '2' then some (10 + digitVal b, rest)
    else if a = '0' ∧ '1' ≤ b ∧ b ≤ '9' then some (digitVal b, rest)
    else if '1' ≤ a ∧ a ≤ '9' then some (digitVal a, b :: rest)
    else none
  | [a] => if '1' ≤ a ∧ a ≤ '9' then some (digitVal a, []) else none
  | [] => none

/-- Directive d: alternation 3[01], [12] digit, 0[1-9], [1-9]. -/
def matchDay : List Char → Option (ℕ × List Char)
  | a :: b :: rest =>
    if a = '3' ∧ '0' ≤ b ∧ b ≤ '1' then some (30 + digitVal b, rest)
    else if ('1' ≤ a ∧ a ≤ '2') ∧ b.isDigit then some (digitVal a * 10 + digitVal b, rest)
    else if a = '0' ∧ '1' ≤ b ∧ b ≤ '9' then some (digitVal b, rest)
    else if '1' ≤ a ∧ a ≤ '9' then some (digitVal a, b :: rest)
    else none
  | [a] => if '1' ≤ a ∧ a ≤ '9' then some (digitVal a, []) else none
  | [] => none

/-- Directive H: alternation 2[0-3], [0-1] digit, digit. -/
def matchHour : List Char → Option (ℕ × List Char)
  | a :: b :: rest =>
    if a = '2' ∧ '0' ≤ b ∧ b ≤ '3' then some (20 + digitVal b, rest)
    else if ('0' ≤ a ∧ a ≤ '1') ∧ b.isDigit then some (digitVal a * 10 + digitVal b, rest)
    else if a.isDigit then some (digitVal a, b :: rest)
    else none
  | [a] => if a.isDigit then some (digitVal a, []) else none
  | [] => none

/-- Directive M: alternation [0-5] digit, digit. -/
def matchMin : List Char → Option (ℕ × List Char)
  | a :: b :: rest =>
    if ('0' ≤ a ∧ a ≤ '5') ∧ b.isDigit then some (digitVal a * 10 + digitVal b, rest)
    else if a.isDigit then some (digitVal a, b :: rest)
    else none
  | [a] => if a.isDigit then some (digitVal a, []) else none
  | [] => none

/-- Directive S: alternation 6[0-1], [0-5] digit, digit. -/
def matchSec : List Char → Option (ℕ × List Char)
  | a :: b :: rest =>
    if a = '6' ∧ '0' ≤ b ∧ b ≤ '1' then some (60 + digitVal b, rest)
    else if ('0' ≤ a ∧ a ≤ '5') ∧ b.isDigit then some (digitVal a * 10 + digitVal b, rest)
    else if a.isDigit then some (digitVal a, b :: rest)
    else none
  | [a] => if a.isDigit then some (digitVal a, []) else none
  | [] => none

/-- Directive p: AM or PM, case-insensitive; true means PM. -/
def matchAmPm : List Char → Option (Bool × List Char)
  | a :: b :: rest =>
    if (a = 'A' ∨ a = 'a') ∧ (b = 'M' ∨ b = 'm') then some (false, rest)
    else if (a = 'P' ∨ a = 'p') ∧ (b = 'M' ∨ b = 'm') then some (true, rest)
    else none
  | _ => none

/-- Hour from the I directive combined with the p directive. -/
def hourFromIP (i : ℕ) (pm : Bool) : ℕ :=
  if pm then (if i = 12 then 12 else i + 12) else (if i = 12 then 0 else i)

/-- The datetime constructor validity gate: the regex already bounds month,
hour and minute; seconds 60 and 61 pass the S pattern but are rejected by
the constructor, as is a day not fitting the month. -/
def finishDT (y mo d h mi s : ℕ) : Option ℤ :=
  if validDate y mo d ∧ s ≤ 59 then some (mkDT y mo d h mi s) else none

def tryYmdHMS (l : List Char) : Option ℤ := do
  let (y, l1) ← matchY l
  let l2 ← matchLit '-' l1
  let (mo, l3) ← matchTwelve l2
  let l4 ← matchLit '-' l3
  let (d, l5) ← matchDay l4
  let l6 ← matchWS l5
  let (h, l7) ← matchHour l6
  let l8 ← matchLit ':' l7
  let (mi, l9) ← matchMin l8
  let l10 ← matchLit ':' l9
  let (s, l11) ← matchSec l10
  if l11 = [] then finishDT y mo d h mi s else none

def tryYmdHM (l : List Char) : Option ℤ := do
  let (y, l1) ← matchY l
  let l2 ← matchLit '-' l1
  let (mo, l3) ← matchTwelve l2
  let l4 ← matchLit '-' l3
  let (d, l5) ← matchDay l4
  let l6 ← matchWS l5
  let (h, l7) ← matchHour l6
  let l8 ← matchLit ':' l7
  let (mi, l9) ← matchMin l8
  if l9 = [] then finishDT y mo d h mi 0 else none

def tryDmyIMp (l : List Char) : Option ℤ := do
  let (d, l1) ← matchDay l
  let l2 ← matchLit '/' l1
  let (mo, l3) ← matchTwelve l2
  let l4 ← matchLit '/' l3
  let (y, l5) ← matchY l4
  let l6 ← matchWS l5
  let (i, l7) ← matchTwelve l6
  let l8 ← matchLit ':' l7
  let (mi, l9) ← matchMin l8
  let l10 ← matchWS l9
  let (pm, l11) ← matchAmPm l10
  if l11 = [] then finishDT y mo d (hourFromIP i pm) mi 0 else none

def tryDmyHM (l : List Char) : Option ℤ := do
  let (d, l1) ← matchDay l
  let l2 ← matchLit '/' l1
  let (mo, l3) ← matchTwelve l2
  let l4 ← matchLit '/' l3
  let (y, l5) ← matchY l4
  let l6 ← matchWS l5
  let (h, l7) ← matchHour l6
  let l8 ← matchLit ':' l7
  let (mi, l9) ← matchMin l8
  if l9 = [] then finishDT y mo d h mi 0 else none

def tryMdyIMp (l : List Char) : Option ℤ := do
  let (mo, l1) ← matchTwelve l
  let l2 ← matchLit '/' l1
  let (d, l3) ← matchDay l2
  let l4 ← matchLit '/' l3
  let (y, l5) ← matchY l4
  let l6 ← matchWS l5
  let (i, l7) ← matchTwelve l6
  let l8 ← matchLit ':' l7
  let (mi, l9) ← matchMin l8
  let l10 ← matchWS l9
  let (pm, l11) ← matchAmPm l10
  if l11 = [] then finishDT y mo d (hourFromIP i pm) mi 0 else none

def tryMdyHM (l : List Char) : Option ℤ := do
  let (mo, l1) ← matchTwelve l
  let l2 ← matchLit '/' l1
  let (d, l3) ← matchDay l2
  let l4 ← matchLit '/' l3
  let (y, l5) ← matchY l4
  let l6 ← matchWS l5
  let (h, l7) ← matchHour l6
  let l8 ← matchLit ':' l7
  let (mi, l9) ← matchMin l8
  if l9 = [] then finishDT y mo d h mi 0 else none

def trySlashYmdHM (l : List Char) : Option ℤ := do
  let (y, l1) ← matchY l
  let l2 ← matchLit '/' l1
  let (mo, l3) ← matchTwelve l2
  let l4 ← matchLit '/' l3
  let (d, l5) ← matchDay l4
  let l6 ← matchWS l5
  let (h, l7) ← matchHour l6
  let l8 ← matchLit ':' l7
  let (mi, l9) ← matchMin l8
  if l9 = [] then finishDT y mo d h mi 0 else none

def trySlashYmdIMp (l : List Char) : Option ℤ := do
  let (y, l1) ← matchY l
  let l2 ← matchLit '/' l1
  let (mo, l3) ← matchTwelve l2
  let l4 ← matchLit '/' l3
  let (d, l5) ← matchDay l4
  let l6 ← matchWS l5
  let (i, l7) ← matchTwelve l6
  let l8 ← matchLit ':' l7
  let (mi, l9) ← matchMin l8
  let l10 ← matchWS l9
  let (pm, l11) ← matchAmPm l10
  if l11 = [] then finishDT y mo d (hourFromIP i pm) mi 0 else none

/-- The fixed format list of calculate_working_days, in source order. -/
def formats_to_try : List (List Char → Option ℤ) :=
  [tryYmdHMS, tryDmyIMp, tryYmdHM, tryDmyHM, tryMdyIMp, tryMdyHM,
   trySlashYmdHM, trySlashYmdIMp]

/-- The parsing phase of calculate_working_days for one endpoint: strip,
then first successful format wins (the loop guards on the accumulator, so
later successes are ignored). -/
def parse_timestamp (s : String) : Option ℤ :=
  formats_to_try.findSome? (fun f => f (stripChars s.toList))

/-! Business calendar and the interval resolver. -/

structure BusinessCalendar where
  work_start : ℤ
  work_end : ℤ
  public_holidays : List ℤ

/-- Day number of an absolute timestamp (floor). -/
def dayOf (t : ℤ) : ℤ := t / 86400

/-- Time of day in seconds. -/
def timeOf (t : ℤ) : ℤ := t % 86400

/-- The hour-and-minute part of a time of day: datetime.replace with only
hour and minute supplied keeps the seconds, so the snapping code plants
only this part of work_start and work_end. -/
def hmOf (x : ℤ) : ℤ := x - x % 60

/-- weekday() < 5 and date not in public_holidays. -/
def is_working_day (cal : BusinessCalendar) (d : ℤ) : Bool :=
  decide (d % 7 < 5) && !(cal.public_holidays.contains d)

/-- The forward start-snap while-loop, one fuel unit per iteration; none
means the loop has not settled within the given fuel.  Non-working days
jump to the next day at work_start hour and minute with seconds zeroed;
the other two rewrites keep the seconds component. -/
def snap_start (cal : BusinessCalendar) : ℕ → ℤ → Option ℤ
  | 0, _ => none
  | n + 1, t =>
    if ¬ is_working_day cal (dayOf t) then
      snap_start cal n ((dayOf t + 1) * 86400 + hmOf cal.work_start)
    else if timeOf t < cal.work_start then
      some (dayOf t * 86400 + hmOf cal.work_start + timeOf t % 60)
    else if cal.work_end ≤ timeOf t then
      snap_start cal n ((dayOf t + 1) * 86400 + hmOf cal.work_start + timeOf t % 60)
    else some t

/-- The backward end-snap while-loop, symmetric to snap_start. -/
def snap_end (cal : BusinessCalendar) : ℕ → ℤ → Option ℤ
  | 0, _ => none
  | n + 1, t =>
    if ¬ is_working_day cal (dayOf t) then
      snap_end cal n ((dayOf t - 1) * 86400 + hmOf cal.work_end)
    else if cal.work_end < timeOf t then
      some (dayOf t * 86400 + hmOf cal.work_end + timeOf t % 60)
    else if timeOf t ≤ cal.work_start then
      snap_end cal n ((dayOf t - 1) * 86400 + hmOf cal.work_end + timeOf t % 60)
    else some t

/-- One iteration of the summation loop advances current_process_time to
the next day at work_start hour and minute, keeping the seconds within
the minute, so the day number grows by exactly one per iteration. -/
def walk_days (cal : BusinessCalendar) (endT : ℤ) : ℕ → ℤ → ℤ
  | 0, _ => 0
  | n + 1, cur =>
    if cur < endT then
      (if is_working_day cal (dayOf cur) then
          min endT (dayOf cur * 86400 + cal.work_end)
            - max cur (dayOf cur * 86400 + cal.work_start)
        else 0)
      + walk_days cal endT n
          ((dayOf cur + 1) * 86400 + hmOf cal.work_start + timeOf cur % 60)
    else 0

/-- The summation loop of calculate_working_days: since each iteration
advances the day by one and the loop stops once the day number passes the
day of the end timestamp, this fuel is exact. -/
def total_working_seconds (cal : BusinessCalendar) (s e : ℤ) : ℤ :=
  walk_days cal e ((dayOf e - dayOf s).toNat + 1) s

def working_seconds_per_day (cal : BusinessCalendar) : ℤ :=
  cal.work_end - cal.work_start

/-- The final division of calculate_working_days. -/
def resolve_snapped (cal : BusinessCalendar) (s e : ℤ) : ℚ :=
  if 0 < working_seconds_per_day cal then
    (total_working_seconds cal s e : ℚ) / (working_seconds_per_day cal : ℚ)
  else 0

inductive ResolvedDuration where
  | nan : ResolvedDuration
  | val : ℚ → ResolvedDuration
deriving DecidableEq

/-- calculate_working_days after both endpoints parsed. -/
def resolve_parsed (fuel : ℕ) (cal : BusinessCalendar) (sd ed : ℤ) : Option ResolvedDuration :=
  if ed ≤ sd then some (.val 0)
  else
    match snap_start cal fuel sd, snap_end cal fuel ed with
    | some s2, some e2 =>
      if e2 ≤ s2 then some (.val 0) else some (.val (resolve_snapped cal s2 e2))
    | _, _ => none

/-- calculate_working_days: none input cells are the pd.isna branch, a
parse failure of either endpoint is np.nan; the outer none result marks a
run of the snapping loops that does not settle within the fuel (the
source loops forever there). -/
def calculate_working_days (fuel : ℕ) (cal : BusinessCalendar)
    (created done : Option String) : Option ResolvedDuration :=
  match created, done with
  | some cs, some ds =>
    match parse_timestamp cs, parse_timestamp ds with
    | some sd, some ed => resolve_parsed fuel cal sd ed
    | _, _ => some .nan
  | _, _ => some .nan

/-- The per-day loop of calculate_total_working_hours. -/
def cap_days (cal : BusinessCalendar) (whpd : ℚ) (e : ℤ) : ℕ → ℤ → ℚ
  | 0, _ => 0
  | n + 1, d =>
    if d ≤ e then
      (if is_working_day cal d then whpd else 0) + cap_days cal whpd e n (d + 1)
    else 0

def working_hours_per_day (cal : BusinessCalendar) : ℚ :=
  ((working_seconds_per_day cal : ℤ) : ℚ) / 3600

/-- calculate_total_working_hours; none dates are the None guards. -/
def calculate_total_working_hours (cal : BusinessCalendar)
    (start_date end_date : Option ℤ) : ℚ :=
  match start_date, end_date with
  | some s, some e =>
    if working_hours_per_day cal ≤ 0 ∨ e < s then 0
    else cap_days cal (working_hours_per_day cal) e ((e - s).toNat + 1) s
  | _, _ => 0

/-- One day of the day-walk as the specification states it, with an
explicit lower bound lb: zero on non-working days, otherwise
max(0, min(end, day_end) - max(lb, day_start)). -/
def claimed_day_term (cal : BusinessCalendar) (lb e d : ℤ) : ℤ :=
  if is_working_day cal d then
    max 0 (min e (d * 86400 + cal.work_end) - max lb (d * 86400 + cal.work_start))
  else 0

/-- The total of step 6 exactly as the specification claims it: the lower
bound of every day window is the snapped start itself. -/
def spec_total_claim (cal : BusinessCalendar) (s e : ℤ) : ℤ :=
  ∑ d in Finset.Icc (dayOf s) (dayOf e), claimed_day_term cal s e d

/-- The amended total: on days after the first, the loop variable sits at
that date at the work_start hour and minute plus the seconds-within-minute
of the snapped start, and that value is the lower bound of the window. -/
def amended_total (cal : BusinessCalendar) (s e : ℤ) : ℤ :=
  ∑ d in Finset.Icc (dayOf s) (dayOf e),
    claimed_day_term cal
      (if d = dayOf s then s else d * 86400 + cal.work_start + timeOf s % 60) e d

/-! Concrete configurations and inputs used by the claims. -/

/-- The default calendar: work 09:30 to 18:30, no excluded dates. -/
def cal95 : BusinessCalendar := ⟨34200, 66600, []⟩

/-- A zero-width calendar: work_start = work_end = 09:30. -/
def calZero : BusinessCalendar := ⟨34200, 34200, []⟩

def sCreatedTue10 : String := "2024-01-02 10:00:00"
def sDoneWed10 : String := "2024-01-03 10:00:00"
def sTueStart : String := "2024-01-02 09:30:00"
def sTueEnd : String := "2024-01-02 18:30:00"
def sTueEarly : String := "2024-01-02 08:00:30"
def sNotADate : String := "not-a-date"
def sAmbiguous : String := "05/03/2024 10:00"
def sIsoNoSec : String := "2024-01-02 09:30"
def sEmpty : String := ""

/-- A calendar with a sub-minute working window, 09:30:00 to 09:30:20. -/
def calShortDay : BusinessCalendar := ⟨34200, 34220, []⟩

/-- A calendar whose work_start has a seconds component, 09:30:30. -/
def calOddStart : BusinessCalendar := ⟨34230, 66600, []⟩

/-! Helper lemmas. -/

theorem is_working_day_iff (cal : BusinessCalendar) (d : ℤ) :
    is_working_day cal d = true ↔
      d % 7 < 5 ∧ cal.public_holidays.contains d = false := by
  simp [is_working_day]

theorem Icc_cons_split (d e : ℤ) (h : d ≤ e) :
    Finset.Icc d e
      = Finset.cons d (Finset.Icc (d + 1) e)
          (by intro hmem; rw [Finset.mem_Icc] at hmem; omega) := by
  ext x
  simp [Finset.mem_Icc, Finset.mem_cons]
  omega

/-! Claim C4. -/

/-- C4: with work hours 09:30 to 18:30 and no excluded dates, a task
created 2024-01-02 09:30:00 and completed 2024-01-02 18:30:00 (a Tuesday)
resolves to exactly 1.0 working days. -/
theorem c4_boundary_exactness :
    calculate_working_days 20 cal95 (some sTueStart) (some sTueEnd)
      = some (.val 1) := by
  have h : calculate_working_days 20 cal95 (some sTueStart) (some sTueEnd)
      = some (.val (resolve_snapped cal95 63839784600 63839817000)) := by rfl
  rw [h]
  have ht : total_working_seconds cal95 63839784600 63839817000 = 32400 := by decide
  rw [resolve_snapped, if_pos (by decide), ht]
  norm_num [working_seconds_per_day, cal95]

/-! Claim C1. -/

theorem snap_start_calZero_none :
    ∀ n (d : ℤ), snap_start calZero n (d * 86400 + 34200) = none := by
  intro n
  induction n with
  | zero => intro d; rfl
  | succ n ih =>
    intro d
    have hd : dayOf (d * 86400 + 34200) = d := by unfold dayOf; omega
    have ht : timeOf (d * 86400 + 34200) = 34200 := by unfold timeOf; omega
    rw [snap_start, hd, ht]
    have hhm : hmOf calZero.work_start = 34200 := by decide
    by_cases hw : is_working_day calZero d = true
    · rw [if_neg (by simp [hw]), if_neg (by decide), if_pos (by decide), hhm]
      have harg : (d + 1) * 86400 + 34200 + (34200 : ℤ) % 60 = (d + 1) * 86400 + 34200 := by
        norm_num
      rw [harg]
      exact ih (d + 1)
    · rw [if_pos (by simp [hw]), hhm]
      exact ih (d + 1)

/-- C1: the specification promises that a zero-width calendar
(work_start = work_end) yields capacity 0.0 and resolution 0.0 with
termination; the capacity part holds, but the start-snap loop of
calculate_working_days never terminates on created 2024-01-02 10:00:00
and completed 2024-01-03 10:00:00 under that calendar (no amount of fuel
settles it), so the resolver hangs instead of returning 0.0. -/
theorem c1_zero_width_calendar_hangs :
    (∀ fuel, calculate_working_days fuel calZero
        (some sCreatedTue10) (some sDoneWed10) = none) ∧
    calculate_total_working_hours calZero (some 738886) (some 738890) = 0 := by
  constructor
  · intro fuel
    have hp1 : parse_timestamp sCreatedTue10 = some 63839786400 := by decide
    have hp2 : parse_timestamp sDoneWed10 = some 63839872800 := by decide
    have hsnap : snap_start calZero fuel 63839786400 = none := by
      match fuel with
      | 0 => rfl
      | n + 1 =>
        rw [snap_start]
        rw [if_neg (by decide), if_neg (by decide), if_pos (by decide)]
        have harg : (dayOf 63839786400 + 1) * 86400 + hmOf calZero.work_start
            + timeOf 63839786400 % 60 = 738887 * 86400 + 34200 := by decide
        rw [harg]
        exact snap_start_calZero_none n 738887
    simp only [calculate_working_days, hp1, hp2, resolve_parsed]
    rw [if_neg (by decide), hsnap]
  · have hcond : working_hours_per_day calZero ≤ 0 ∨ (738890 : ℤ) < 738886 := by
      left
      norm_num [working_hours_per_day, working_seconds_per_day, calZero]
    simp only [calculate_total_working_hours]
    rw [if_pos hcond]

/-! Claim C3. -/

/-- C3 (amended): on a working day, a start before work_start is moved to
the work_start hour and minute on the same day but keeps the seconds
component of the original timestamp (it equals work_start itself only
when those seconds are zero), and an end after work_end is clamped to the
work_end hour and minute keeping the seconds component likewise. -/
theorem c3_snap_keeps_seconds (cal : BusinessCalendar) (n : ℕ) (t : ℤ)
    (hw : is_working_day cal (dayOf t) = true) :
    (timeOf t < cal.work_start →
      snap_start cal (n + 1) t
        = some (dayOf t * 86400 + hmOf cal.work_start + timeOf t % 60)) ∧
    (cal.work_end < timeOf t →
      snap_end cal (n + 1) t
        = some (dayOf t * 86400 + hmOf cal.work_end + timeOf t % 60)) := by
  constructor
  · intro hlt
    rw [snap_start, if_neg (by simp [hw]), if_pos hlt]
  · intro hgt
    rw [snap_end, if_neg (by simp [hw]), if_pos hgt]

theorem c3_witness :
    is_working_day cal95 (dayOf 63839779230) = true ∧
    timeOf 63839779230 < cal95.work_start ∧
    snap_start cal95 1 63839779230
      = some (dayOf 63839779230 * 86400 + hmOf cal95.work_start + timeOf 63839779230 % 60) :=
  ⟨by decide, by decide,
    (c3_snap_keeps_seconds cal95 0 63839779230 (by decide)).1 (by decide)⟩

/-- C3 counterexample: the timestamp parsed from 2024-01-02 08:00:30 lies
on a working Tuesday before work_start 09:30:00; the snapped start is
09:30:30 on that day, not exactly work_start. -/
theorem c3_counterexample :
    parse_timestamp sTueEarly = some 63839779230 ∧
    snap_start cal95 5 63839779230 = some 63839784630 ∧
    timeOf 63839784630 ≠ cal95.work_start := by
  exact ⟨by decide, by decide, by decide⟩

/-! Claim C6. -/

/-- C6: the resolver maps bad input to the Undefined sentinel instead of
raising: a missing cell on either side, or a string no format parses
(the empty string and a non-date among them), makes the whole resolution
Undefined, before any loop can run. -/
theorem c6_bad_input_is_undefined :
    parse_timestamp sEmpty = none ∧ parse_timestamp sNotADate = none ∧
    ∀ (fuel : ℕ) (cal : BusinessCalendar) (created done : Option String),
      (created = none ∨ done = none ∨
        (∃ s, created = some s ∧ parse_timestamp s = none) ∨
        (∃ s, done = some s ∧ parse_timestamp s = none)) →
      calculate_working_days fuel cal created done = some .nan := by
  refine ⟨by decide, by decide, ?_⟩
  rintro fuel cal created done (rfl | rfl | ⟨s, rfl, hp⟩ | ⟨s, rfl, hp⟩)
  · rfl
  · cases created <;> rfl
  · cases done with
    | none => rfl
    | some t =>
      simp only [calculate_working_days, hp]
  · cases created with
    | none => rfl
    | some t =>
      simp only [calculate_working_days, hp]
      cases parse_timestamp t <;> rfl

theorem c6_witness :
    calculate_working_days 0 cal95 (some sNotADate) (some sTueStart)
      = some .nan :=
  c6_bad_input_is_undefined.2.2 0 cal95 (some sNotADate) (some sTueStart)
    (Or.inr (Or.inr (Or.inl ⟨sNotADate, rfl, by decide⟩)))

/-! Claim C8. -/

theorem cap_days_eq_sum (cal : BusinessCalendar) (w : ℚ) (e : ℤ) :
    ∀ (n : ℕ) (d : ℤ), e < d + (n : ℤ) →
      cap_days cal w e n d
        = ∑ j in Finset.Icc d e, (if is_working_day cal j then w else 0) := by
  intro n
  induction n with
  | zero =>
    intro d h
    rw [Finset.Icc_eq_empty (by omega), Finset.sum_empty]
    rfl
  | succ n ih =>
    intro d h
    by_cases hde : d ≤ e
    · rw [cap_days, if_pos hde, Icc_cons_split d e hde, Finset.sum_cons,
        ih (d + 1) (by push_cast at h ⊢; omega)]
    · rw [cap_days, if_neg hde, Finset.Icc_eq_empty (by omega), Finset.sum_empty]

/-- C8: capacity is monotone in the end date: extending the end of the
range, holding calendar and start fixed, never decreases the result. -/
theorem c8_capacity_monotone (cal : BusinessCalendar) (s e1 e2 : ℤ)
    (h1 : s ≤ e1) (h2 : e1 ≤ e2) :
    calculate_total_working_hours cal (some s) (some e1)
      ≤ calculate_total_working_hours cal (some s) (some e2) := by
  simp only [calculate_total_working_hours]
  by_cases hw : working_hours_per_day cal ≤ 0
  · rw [if_pos (Or.inl hw), if_pos (Or.inl hw)]
  · have hwpos : 0 < working_hours_per_day cal := lt_of_not_le hw
    rw [if_neg (by push_neg; exact ⟨hwpos, by omega⟩),
      if_neg (by push_neg; exact ⟨hwpos, by omega⟩),
      cap_days_eq_sum cal (working_hours_per_day cal) e1 ((e1 - s).toNat + 1) s (by omega),
      cap_days_eq_sum cal (working_hours_per_day cal) e2 ((e2 - s).toNat + 1) s (by omega)]
    apply Finset.sum_le_sum_of_subset_of_nonneg (Finset.Icc_subset_Icc_right h2)
    intro i _ _
    by_cases hi : is_working_day cal i = true
    · rw [if_pos hi]; exact le_of_lt hwpos
    · rw [if_neg hi]

theorem c8_witness :
    calculate_total_working_hours cal95 (some 0) (some 1)
      ≤ calculate_total_working_hours cal95 (some 0) (some 4) :=
  c8_capacity_monotone cal95 0 1 4 (by omega) (by omega)

/-! Snap postcondition lemmas, shared by claims C9 and C10.  They hold
for calendars whose work_start and work_end are whole minutes (as the
time inputs of the app are) with work_start < work_end. -/

theorem snap_start_post (cal : BusinessCalendar)
    (hws : cal.work_start % 60 = 0) (hwe : cal.work_end % 60 = 0)
    (h0 : 0 ≤ cal.work_start) (hlt : cal.work_start < cal.work_end)
    (hub : cal.work_end < 86400) :
    ∀ n t y, snap_start cal n t = some y →
      is_working_day cal (dayOf y) = true ∧
      cal.work_start ≤ timeOf y ∧ timeOf y < cal.work_end := by
  have hgap : cal.work_start + 60 ≤ cal.work_end := by omega
  intro n
  induction n with
  | zero => intro t y h; exact absurd h (by simp [snap_start])
  | succ n ih =>
    intro t y h
    rw [snap_start] at h
    split_ifs at h with h1 h2 h3
    · injection h with h
      subst h
      have hdy : dayOf (dayOf t * 86400 + hmOf cal.work_start + timeOf t % 60)
          = dayOf t := by
        unfold dayOf timeOf hmOf
        omega
      have hty : timeOf (dayOf t * 86400 + hmOf cal.work_start + timeOf t % 60)
          = cal.work_start + timeOf t % 60 := by
        unfold dayOf timeOf hmOf
        omega
      rw [hdy, hty]
      refine ⟨h1, by omega, by omega⟩
    · exact ih _ y h
    · injection h with h
      subst h
      exact ⟨h1, by omega, by omega⟩
    · exact ih _ y h

theorem snap_end_post (cal : BusinessCalendar)
    (hws : cal.work_start % 60 = 0) (hwe : cal.work_end % 60 = 0)
    (h0 : 0 ≤ cal.work_start) (hlt : cal.work_start < cal.work_end)
    (hub : cal.work_end < 86400) :
    ∀ n t y, snap_end cal n t = some y →
      is_working_day cal (dayOf y) = true ∧
      cal.work_start < timeOf y ∧ timeOf y < cal.work_end + 60 := by
  intro n
  induction n with
  | zero => intro t y h; exact absurd h (by simp [snap_end])
  | succ n ih =>
    intro t y h
    rw [snap_end] at h
    split_ifs at h with h1 h2 h3
    · injection h with h
      subst h
      have hdy : dayOf (dayOf t * 86400 + hmOf cal.work_end + timeOf t % 60)
          = dayOf t := by
        unfold dayOf timeOf hmOf
        omega
      have hty : timeOf (dayOf t * 86400 + hmOf cal.work_end + timeOf t % 60)
          = cal.work_end + timeOf t % 60 := by
        unfold dayOf timeOf hmOf
        omega
      rw [hdy, hty]
      refine ⟨h1, by omega, by omega⟩
    · exact ih _ y h
    · injection h with h
      subst h
      exact ⟨h1, by omega, by omega⟩
    · exact ih _ y h

/-! Claim C9. -/

/-- C9 (amended): for every calendar whose work_start and work_end are
whole minutes with work_start < work_end, any output of the forward
start-snap is a fixed point of the start-snap, and any output of the
backward end-snap is a fixed point of the end-snap. -/
theorem c9_snapping_idempotent (cal : BusinessCalendar)
    (hws : cal.work_start % 60 = 0) (hwe : cal.work_end % 60 = 0)
    (h0 : 0 ≤ cal.work_start) (hlt : cal.work_start < cal.work_end)
    (hub : cal.work_end < 86400) :
    (∀ n t y, snap_start cal n t = some y →
        ∀ m, snap_start cal (m + 1) y = some y) ∧
    (∀ n t y, snap_end cal n t = some y →
        ∀ m, snap_end cal (m + 1) y = some y) := by
  constructor
  · intro n t y h m
    obtain ⟨hw, hlo, hhi⟩ := snap_start_post cal hws hwe h0 hlt hub n t y h
    rw [snap_start, if_neg (by simp [hw]), if_neg (by omega), if_neg (by omega)]
  · intro n t y h m
    obtain ⟨hw, hlo, hhi⟩ := snap_end_post cal hws hwe h0 hlt hub n t y h
    by_cases hc : cal.work_end < timeOf y
    · rw [snap_end, if_neg (by simp [hw]), if_pos hc]
      congr 1
      simp only [dayOf, timeOf, hmOf] at hc hhi ⊢
      omega
    · rw [snap_end, if_neg (by simp [hw]), if_neg hc, if_neg (by omega)]

theorem c9_witness :
    snap_start cal95 1 34230 = some 34230 :=
  (c9_snapping_idempotent cal95 (by decide) (by decide) (by decide) (by decide)
      (by decide)).1 5 28830 34230 (by decide) 0

/-- C9 counterexample: under the sub-minute calendar 09:30:00 to 09:30:20
(work_start < work_end, as the claim quantifies), Monday 08:00:30 snaps
to 09:30:30, but re-running the start-snap on that output moves it a full
week ahead to the next Monday 09:30:00, so snapping is not idempotent. -/
theorem c9_counterexample :
    calShortDay.work_start < calShortDay.work_end ∧
    snap_start calShortDay 20 28830 = some 34230 ∧
    snap_start calShortDay 20 34230 = some 639000 ∧
    (34230 : ℤ) ≠ 639000 := by
  exact ⟨by decide, by decide, by decide, by decide⟩

/-! Claim C10. -/

/-- C10 (amended): for every calendar whose work_start and work_end are
whole minutes with work_start < work_end, whenever the snap loops
terminate the snapped start lies on a working day with time of day in
the window from work_start inclusive to work_end exclusive, and the
snapped end lies on a working day with time of day strictly after
work_start. -/
theorem c10_snap_postcondition (cal : BusinessCalendar)
    (hws : cal.work_start % 60 = 0) (hwe : cal.work_end % 60 = 0)
    (h0 : 0 ≤ cal.work_start) (hlt : cal.work_start < cal.work_end)
    (hub : cal.work_end < 86400) :
    (∀ n t y, snap_start cal n t = some y →
        is_working_day cal (dayOf y) = true ∧
        cal.work_start ≤ timeOf y ∧ timeOf y < cal.work_end) ∧
    (∀ n t y, snap_end cal n t = some y →
        is_working_day cal (dayOf y) = true ∧ cal.work_start < timeOf y) :=
  ⟨snap_start_post cal hws hwe h0 hlt hub,
    fun n t y h => ⟨(snap_end_post cal hws hwe h0 hlt hub n t y h).1,
      (snap_end_post cal hws hwe h0 hlt hub n t y h).2.1⟩⟩

theorem c10_witness :
    is_working_day cal95 (dayOf 34230) = true ∧
    cal95.work_start ≤ timeOf 34230 ∧ timeOf 34230 < cal95.work_end :=
  (c10_snap_postcondition cal95 (by decide) (by decide) (by decide) (by decide)
      (by decide)).1 5 28830 34230 (by decide)

/-- C10 counterexample: with work_start 09:30:30 (the claim quantifies
over every calendar with work_start < work_end, including times with a
seconds component), Monday 08:00:10 snaps to 09:30:10: the loop
terminates on a working day but the time of day is strictly before
work_start, refuting the claimed postcondition. -/
theorem c10_counterexample :
    calOddStart.work_start < calOddStart.work_end ∧
    snap_start calOddStart 5 28810 = some 34210 ∧
    timeOf 34210 < calOddStart.work_start := by
  exact ⟨by decide, by decide, by decide⟩

/-! Claim C2. -/

theorem walk_days_anchor (cal : BusinessCalendar)
    (hws : cal.work_start % 60 = 0) (hwe : cal.work_end % 60 = 0)
    (h0 : 0 ≤ cal.work_start) (hlt : cal.work_start < cal.work_end)
    (hub : cal.work_end < 86400)
    (e s60 : ℤ) (hs0 : 0 ≤ s60) (hs60 : s60 < 60) :
    ∀ (n : ℕ) (d : ℤ), dayOf e < d + (n : ℤ) →
      walk_days cal e n (d * 86400 + cal.work_start + s60)
        = ∑ j in Finset.Icc d (dayOf e),
            claimed_day_term cal (j * 86400 + cal.work_start + s60) e j := by
  have hgap : cal.work_start + 60 ≤ cal.work_end := by omega
  intro n
  induction n with
  | zero =>
    intro d h
    rw [Finset.Icc_eq_empty (by omega), Finset.sum_empty]
    rfl
  | succ n ih =>
    intro d h
    have hcurday : dayOf (d * 86400 + cal.work_start + s60) = d := by
      unfold dayOf
      omega
    have hcurtime : timeOf (d * 86400 + cal.work_start + s60)
        = cal.work_start + s60 := by
      unfold timeOf
      omega
    by_cases hde : d ≤ dayOf e
    · by_cases hcur : d * 86400 + cal.work_start + s60 < e
      · rw [walk_days, if_pos hcur, hcurday, hcurtime]
        have hnext : (d + 1) * 86400 + hmOf cal.work_start
            + (cal.work_start + s60) % 60 = (d + 1) * 86400 + cal.work_start + s60 := by
          unfold hmOf
          omega
        rw [hnext, ih (d + 1) (by push_cast at h ⊢; omega),
          Icc_cons_split d (dayOf e) hde, Finset.sum_cons]
        congr 1
        unfold claimed_day_term
        by_cases hw : is_working_day cal d = true
        · rw [if_pos hw, if_pos hw]
          omega
        · rw [if_neg hw, if_neg hw]
      · rw [walk_days, if_neg hcur]
        symm
        apply Finset.sum_eq_zero
        intro j hj
        rw [Finset.mem_Icc] at hj
        unfold claimed_day_term
        by_cases hw : is_working_day cal j = true
        · rw [if_pos hw]
          omega
        · rw [if_neg hw]
    · rw [Finset.Icc_eq_empty (by omega), Finset.sum_empty, walk_days,
        if_neg (by unfold dayOf at hde; omega)]

/-- C2 (amended): for calendars with whole-minute work times,
work_start < work_end, and snapped endpoints start < end with the start
time of day inside the working window, the loop total equals the sum
over each date from the start date to the end date inclusive of
max(0, min(end, day_end) - max(lb, day_start)) on working days and 0 on
non-working days, where lb is the snapped start on the first date but,
on every later date, that date at the work_start hour and minute plus
the seconds-within-minute of the snapped start (the loop carries the
seconds of the start into each later day, so lb is not the plain
day_start the specification claims); the result is that total divided by
the per-day working seconds. -/
theorem c2_walk_equals_daily_sum (cal : BusinessCalendar)
    (hws : cal.work_start % 60 = 0) (hwe : cal.work_end % 60 = 0)
    (h0 : 0 ≤ cal.work_start) (hlt : cal.work_start < cal.work_end)
    (hub : cal.work_end < 86400)
    (s e : ℤ) (hse : s < e)
    (hlo : cal.work_start ≤ timeOf s) (hhi : timeOf s < cal.work_end) :
    total_working_seconds cal s e = amended_total cal s e ∧
    resolve_snapped cal s e
      = (amended_total cal s e : ℚ) / ((working_seconds_per_day cal : ℤ) : ℚ) := by
  have hgap : cal.work_start + 60 ≤ cal.work_end := by omega
  have hds : dayOf s ≤ dayOf e := by
    unfold dayOf
    omega
  have hmain : total_working_seconds cal s e = amended_total cal s e := by
    unfold total_working_seconds
    rw [walk_days, if_pos hse]
    have hhm : hmOf cal.work_start = cal.work_start := by
      unfold hmOf
      omega
    rw [hhm]
    rw [walk_days_anchor cal hws hwe h0 hlt hub e (timeOf s % 60)
      (by unfold timeOf; omega) (by unfold timeOf; omega)
      ((dayOf e - dayOf s).toNat) (dayOf s + 1) (by omega)]
    unfold amended_total
    rw [Icc_cons_split (dayOf s) (dayOf e) hds, Finset.sum_cons, if_pos rfl]
    have htail :
        ∑ j in Finset.Icc (dayOf s + 1) (dayOf e),
            claimed_day_term cal
              (if j = dayOf s then s else j * 86400 + cal.work_start + timeOf s % 60) e j
          = ∑ j in Finset.Icc (dayOf s + 1) (dayOf e),
              claimed_day_term cal (j * 86400 + cal.work_start + timeOf s % 60) e j := by
      apply Finset.sum_congr rfl
      intro j hj
      rw [Finset.mem_Icc] at hj
      rw [if_neg (by omega)]
    rw [htail]
    congr 1
    unfold claimed_day_term
    by_cases hw : is_working_day cal (dayOf s) = true
    · rw [if_pos hw, if_pos hw]
      simp only [dayOf, timeOf] at hlo hhi ⊢
      omega
    · rw [if_neg hw, if_neg hw]
  refine ⟨hmain, ?_⟩
  rw [resolve_snapped, if_pos (by unfold working_seconds_per_day; omega), hmain]

theorem c2_witness :
    total_working_seconds cal95 36030 129600 = amended_total cal95 36030 129600 :=
  (c2_walk_equals_daily_sum cal95 (by decide) (by decide) (by decide) (by decide)
      (by decide) 36030 129600 (by decide) (by decide) (by decide)).1

/-- C2 counterexample: under the default calendar, the snapped endpoints
Monday 10:00:30 and Tuesday 12:00:00 (both fixed points of their snaps,
with start < end) give a loop total of 39540 seconds, while the
specification formula with day_start as the lower bound of every later
day gives 39570: the loop starts later days at 09:30:30, not 09:30:00. -/
theorem c2_counterexample :
    cal95.work_start < cal95.work_end ∧
    snap_start cal95 5 36030 = some 36030 ∧
    snap_end cal95 5 129600 = some 129600 ∧
    (36030 : ℤ) < 129600 ∧
    total_working_seconds cal95 36030 129600 = 39540 ∧
    spec_total_claim cal95 36030 129600 = 39570 := by
  exact ⟨by decide, by decide, by decide, by decide, by decide, by decide⟩

/-! Claim C5. -/

/-- C5: with work 09:30 to 18:30 and no excluded dates, a task created on
a Friday at 17:00 and completed the following Monday at 09:00 resolves to
exactly 1.5/9 of a working day: the start, inside hours, stays at Friday
17:00, and the end snaps back to Friday 18:30 (the previous working day
end) because Monday 09:00 is at or before work_start. -/
theorem c5_weekend_snap_back (d : ℤ) (hd : d % 7 = 4) :
    snap_start cal95 20 (d * 86400 + 61200) = some (d * 86400 + 61200) ∧
    snap_end cal95 20 ((d + 3) * 86400 + 32400) = some (d * 86400 + 66600) ∧
    resolve_parsed 20 cal95 (d * 86400 + 61200) ((d + 3) * 86400 + 32400)
      = some (.val ((1.5 : ℚ) / 9)) := by
  have hwe95 : cal95.work_end = 66600 := rfl
  have hws95 : cal95.work_start = 34200 := rfl
  have hw0 : is_working_day cal95 d = true :=
    (is_working_day_iff cal95 d).mpr ⟨by omega, rfl⟩
  have hw3 : is_working_day cal95 (d + 3) = true :=
    (is_working_day_iff cal95 (d + 3)).mpr ⟨by omega, rfl⟩
  have hw1 : ¬ is_working_day cal95 (d + 1) = true :=
    fun hc => absurd ((is_working_day_iff cal95 (d + 1)).mp hc).1 (by omega)
  have hw2 : ¬ is_working_day cal95 (d + 2) = true :=
    fun hc => absurd ((is_working_day_iff cal95 (d + 2)).mp hc).1 (by omega)
  have hstart : ∀ n : ℕ, snap_start cal95 (n + 1) (d * 86400 + 61200)
      = some (d * 86400 + 61200) := by
    intro n
    have hday : dayOf (d * 86400 + 61200) = d := by unfold dayOf; omega
    have htime : timeOf (d * 86400 + 61200) = 61200 := by unfold timeOf; omega
    rw [snap_start, hday, htime, if_neg (by simp [hw0]), if_neg (by decide),
      if_neg (by decide)]
  have hend : ∀ n : ℕ, snap_end cal95 (n + 1 + 1 + 1 + 1) ((d + 3) * 86400 + 32400)
      = some (d * 86400 + 66600) := by
    intro n
    have hday3 : dayOf ((d + 3) * 86400 + 32400) = d + 3 := by unfold dayOf; omega
    have htime3 : timeOf ((d + 3) * 86400 + 32400) = 32400 := by unfold timeOf; omega
    rw [snap_end, hday3, htime3, if_neg (by simp [hw3]), if_neg (by decide),
      if_pos (by decide)]
    have harg3 : (d + 3 - 1) * 86400 + hmOf cal95.work_end + (32400 : ℤ) % 60
        = (d + 2) * 86400 + 66600 := by
      rw [hwe95]; unfold hmOf; omega
    rw [harg3]
    have hday2 : dayOf ((d + 2) * 86400 + 66600) = d + 2 := by unfold dayOf; omega
    rw [snap_end, hday2, if_pos hw2]
    have harg2 : (d + 2 - 1) * 86400 + hmOf cal95.work_end
        = (d + 1) * 86400 + 66600 := by
      rw [hwe95]; unfold hmOf; omega
    rw [harg2]
    have hday1 : dayOf ((d + 1) * 86400 + 66600) = d + 1 := by unfold dayOf; omega
    rw [snap_end, hday1, if_pos hw1]
    have harg1 : (d + 1 - 1) * 86400 + hmOf cal95.work_end
        = d * 86400 + 66600 := by
      rw [hwe95]; unfold hmOf; omega
    rw [harg1]
    have hday0 : dayOf (d * 86400 + 66600) = d := by unfold dayOf; omega
    have htime0 : timeOf (d * 86400 + 66600) = 66600 := by unfold timeOf; omega
    rw [snap_end, hday0, htime0, if_neg (by simp [hw0]), if_neg (by decide),
      if_neg (by decide)]
  have hs20 : snap_start cal95 20 (d * 86400 + 61200) = some (d * 86400 + 61200) :=
    hstart 19
  have he20 : snap_end cal95 20 ((d + 3) * 86400 + 32400)
      = some (d * 86400 + 66600) := hend 16
  refine ⟨hs20, he20, ?_⟩
  have htot : total_working_seconds cal95 (d * 86400 + 61200) (d * 86400 + 66600)
      = 5400 := by
    unfold total_working_seconds
    have hd1 : dayOf (d * 86400 + 61200) = d := by unfold dayOf; omega
    have hd2 : dayOf (d * 86400 + 66600) = d := by unfold dayOf; omega
    rw [hd1, hd2, sub_self]
    rw [show (0 : ℤ).toNat = 0 from rfl]
    rw [walk_days, if_pos (by omega), hd1, if_pos hw0, walk_days]
    rw [hws95, hwe95]
    omega
  have hres : resolve_snapped cal95 (d * 86400 + 61200) (d * 86400 + 66600)
      = (1.5 : ℚ) / 9 := by
    rw [resolve_snapped, if_pos (by decide), htot]
    norm_num [working_seconds_per_day, cal95]
  unfold resolve_parsed
  rw [if_neg (by omega), hs20, he20]
  show (if (d * 86400 + 66600 : ℤ) ≤ d * 86400 + 61200 then some (ResolvedDuration.val 0)
    else some (.val (resolve_snapped cal95 (d * 86400 + 61200) (d * 86400 + 66600))))
    = some (.val ((1.5 : ℚ) / 9))
  rw [if_neg (by omega), hres]

theorem c5_witness :
    (738889 : ℤ) % 7 = 4 ∧
    resolve_parsed 20 cal95 (738889 * 86400 + 61200) ((738889 + 3) * 86400 + 32400)
      = some (.val ((1.5 : ℚ) / 9)) :=
  ⟨by decide, (c5_weekend_snap_back 738889 (by decide)).2.2⟩

/-! Claim C7. -/

theorem matchY_shape {l : List Char} {y : ℕ} {r : List Char}
    (h : matchY l = some (y, r)) :
    ∃ c1 c2 c3 c4, l = c1 :: c2 :: c3 :: c4 :: r ∧
      c2.isDigit = true ∧ c3.isDigit = true := by
  obtain _ | ⟨a, _ | ⟨b, _ | ⟨c, _ | ⟨d, rest⟩⟩⟩⟩ := l
  · simp [matchY] at h
  · simp [matchY] at h
  · simp [matchY] at h
  · simp [matchY] at h
  · rw [matchY] at h
    split_ifs at h with hc
    · simp only [Option.some.injEq, Prod.mk.injEq] at h
      obtain ⟨-, hr⟩ := h
      subst hr
      exact ⟨a, b, c, d, rfl, hc.2.1, hc.2.2.1⟩

theorem matchDay_shape {l : List Char} {v : ℕ} {r : List Char}
    (h : matchDay l = some (v, r)) :
    (∃ a, l = a :: r) ∨ (∃ a b, l = a :: b :: r) := by
  obtain _ | ⟨a, _ | ⟨b, rest⟩⟩ := l
  · simp [matchDay] at h
  · rw [matchDay] at h
    split_ifs at h with hc
    · simp only [Option.some.injEq, Prod.mk.injEq] at h
      obtain ⟨-, hr⟩ := h
      subst hr
      exact Or.inl ⟨a, rfl⟩
  · rw [matchDay] at h
    split_ifs at h with h1 h2 h3 h4
    · simp only [Option.some.injEq, Prod.mk.injEq] at h
      obtain ⟨-, hr⟩ := h
      subst hr
      exact Or.inr ⟨a, b, rfl⟩
    · simp only [Option.some.injEq, Prod.mk.injEq] at h
      obtain ⟨-, hr⟩ := h
      subst hr
      exact Or.inr ⟨a, b, rfl⟩
    · simp only [Option.some.injEq, Prod.mk.injEq] at h
      obtain ⟨-, hr⟩ := h
      subst hr
      exact Or.inr ⟨a, b, rfl⟩
    · simp only [Option.some.injEq, Prod.mk.injEq] at h
      obtain ⟨-, hr⟩ := h
      subst hr
      exact Or.inl ⟨a, rfl⟩

theorem matchLit_shape {c : Char} {l r : List Char} (h : matchLit c l = some r) :
    l = c :: r := by
  obtain _ | ⟨a, t⟩ := l
  · simp [matchLit] at h
  · rw [matchLit] at h
    split_ifs at h with hc
    · injection h with h
      subst h
      rw [hc]

set_option maxHeartbeats 1600000 in
theorem tryDmyIMp_slash {l : List Char} {v : ℤ} (h : tryDmyIMp l = some v) :
    l.get? 1 = some '/' ∨ l.get? 2 = some '/' := by
  rw [tryDmyIMp] at h
  cases hD : matchDay l with
  | none => rw [hD] at h; simp at h
  | some p =>
    obtain ⟨d0, l1⟩ := p
    rw [hD] at h
    simp at h
    cases hL : matchLit '/' l1 with
    | none => rw [hL] at h; simp at h
    | some l2 =>
      have hlit := matchLit_shape hL
      subst hlit
      rcases matchDay_shape hD with ⟨a, hl⟩ | ⟨a, b, hl⟩
      · subst hl; left; rfl
      · subst hl; right; rfl

set_option maxHeartbeats 1600000 in
theorem tryDmyHM_slash {l : List Char} {v : ℤ} (h : tryDmyHM l = some v) :
    l.get? 1 = some '/' ∨ l.get? 2 = some '/' := by
  rw [tryDmyHM] at h
  cases hD : matchDay l with
  | none => rw [hD] at h; simp at h
  | some p =>
    obtain ⟨d0, l1⟩ := p
    rw [hD] at h
    simp at h
    cases hL : matchLit '/' l1 with
    | none => rw [hL] at h; simp at h
    | some l2 =>
      have hlit := matchLit_shape hL
      subst hlit
      rcases matchDay_shape hD with ⟨a, hl⟩ | ⟨a, b, hl⟩
      · subst hl; left; rfl
      · subst hl; right; rfl

set_option maxHeartbeats 1600000 in
theorem tryYmdHMS_shape {l : List Char} {v : ℤ} (h : tryYmdHMS l = some v) :
    ∃ c1 c2 c3 c4 t, l = c1 :: c2 :: c3 :: c4 :: '-' :: t ∧
      c2.isDigit = true ∧ c3.isDigit = true := by
  rw [tryYmdHMS] at h
  cases hY : matchY l with
  | none => rw [hY] at h; simp at h
  | some p =>
    obtain ⟨y0, l1⟩ := p
    rw [hY] at h
    simp at h
    cases hL : matchLit '-' l1 with
    | none => rw [hL] at h; simp at h
    | some l2 =>
      obtain ⟨c1, c2, c3, c4, hl, h2, h3⟩ := matchY_shape hY
      have hlit := matchLit_shape hL
      subst hlit
      subst hl
      exact ⟨c1, c2, c3, c4, l2, rfl, h2, h3⟩

set_option maxHeartbeats 1600000 in
theorem tryYmdHM_shape {l : List Char} {v : ℤ} (h : tryYmdHM l = some v) :
    ∃ c1 c2 c3 c4 t, l = c1 :: c2 :: c3 :: c4 :: '-' :: t ∧
      c2.isDigit = true ∧ c3.isDigit = true := by
  rw [tryYmdHM] at h
  cases hY : matchY l with
  | none => rw [hY] at h; simp at h
  | some p =>
    obtain ⟨y0, l1⟩ := p
    rw [hY] at h
    simp at h
    cases hL : matchLit '-' l1 with
    | none => rw [hL] at h; simp at h
    | some l2 =>
      obtain ⟨c1, c2, c3, c4, hl, h2, h3⟩ := matchY_shape hY
      have hlit := matchLit_shape hL
      subst hlit
      subst hl
      exact ⟨c1, c2, c3, c4, l2, rfl, h2, h3⟩

theorem iso_fails_on_slash {l : List Char}
    (hs : l.get? 1 = some '/' ∨ l.get? 2 = some '/') :
    tryYmdHMS l = none ∧ tryYmdHM l = none := by
  constructor
  · cases hv : tryYmdHMS l with
    | none => rfl
    | some v =>
      exfalso
      obtain ⟨c1, c2, c3, c4, t, hl, h2, h3⟩ := tryYmdHMS_shape hv
      subst hl
      rcases hs with hs | hs
      · simp only [List.get?] at hs
        injection hs with hs
        rw [hs] at h2
        exact absurd h2 (by decide)
      · simp only [List.get?] at hs
        injection hs with hs
        rw [hs] at h3
        exact absurd h3 (by decide)
  · cases hv : tryYmdHM l with
    | none => rfl
    | some v =>
      exfalso
      obtain ⟨c1, c2, c3, c4, t, hl, h2, h3⟩ := tryYmdHM_shape hv
      subst hl
      rcases hs with hs | hs
      · simp only [List.get?] at hs
        injection hs with hs
        rw [hs] at h2
        exact absurd h2 (by decide)
      · simp only [List.get?] at hs
        injection hs with hs
        rw [hs] at h3
        exact absurd h3 (by decide)

/-- C7: the parser tries the format list in the fixed source order and
returns the first success: a string matched by the first ISO format is
returned outright; a string matched by both the day/month and the
month/day slash formats yields the day/month interpretation (the ISO
formats, which come earlier, cannot match a string the slash formats
match, since slash formats put a separator at position 1 or 2 where the
ISO formats require digits); concretely 05/03/2024 10:00 parses as March
5 under day/month, and ISO strings parse under the ISO formats. -/
theorem c7_format_priority :
    (∀ (s : String) (v : ℤ), tryYmdHMS (stripChars s.toList) = some v →
        parse_timestamp s = some v) ∧
    (∀ (s : String) (v w : ℤ),
        (tryDmyIMp (stripChars s.toList) <|> tryDmyHM (stripChars s.toList)) = some v →
        (tryMdyIMp (stripChars s.toList) <|> tryMdyHM (stripChars s.toList)) = some w →
        parse_timestamp s = some v) ∧
    parse_timestamp sAmbiguous = some (mkDT 2024 3 5 10 0 0) ∧
    parse_timestamp sIsoNoSec = some (mkDT 2024 1 2 9 30 0) ∧
    parse_timestamp sTueStart = some (mkDT 2024 1 2 9 30 0) := by
  refine ⟨?_, ?_, by decide, by decide, by decide⟩
  · intro s v h
    simp only [String.toList] at h
    simp [parse_timestamp, formats_to_try, List.findSome?_cons, h]
  · intro s v w hdm hmd
    cases h1 : tryDmyIMp (stripChars s.toList) with
    | some u =>
      rw [h1] at hdm
      simp at hdm
      subst hdm
      obtain ⟨hA, hB⟩ := iso_fails_on_slash (tryDmyIMp_slash h1)
      simp only [String.toList] at hA h1
      simp [parse_timestamp, formats_to_try, List.findSome?_cons, hA, h1]
    | none =>
      rw [h1] at hdm
      simp at hdm
      obtain ⟨hA, hB⟩ := iso_fails_on_slash (tryDmyHM_slash hdm)
      simp only [String.toList] at hA hB h1
      simp [parse_timestamp, formats_to_try, List.findSome?_cons, hA, hB, h1, hdm]

theorem c7_witness :
    parse_timestamp sAmbiguous = some 63845229600 :=
  c7_format_priority.2.1 sAmbiguous 63845229600 63850327200 (by decide) (by decide)
